import Mathlib

/-!
Shallow embedding of the client-side document store, ingestion pipeline,
import-export codec, selection manager and chat session of the
ai-knowledge-hub frontend (src/frontend/src/App.tsx, second revision in the
file, and the chat component in src/unnamed/part_000).

Conventions of the embedding:
* JavaScript strings are modelled by Lean `String`; `s.length` counts
  characters (the sources only compare lengths of plain text, so the
  UTF-16 vs codepoint distinction does not matter for the claims).
* `String.prototype.trim`, `String.prototype.startsWith`,
  `String.prototype.split('.')`, `name.replace(/\.[^/.]+$/, '')` and
  `slice(0, n)` are modelled by executable Lean functions over `s.data`.
* React `useState` cells are fields of explicit state structures; event
  handlers become state-transition functions.  Values produced by the host
  environment (`Date.now()`, `new Date().toISOString()`, `Math.random()`,
  the fetch response) are threaded as explicit parameters.
* `localStorage` is an association list from keys to stored strings;
  the `useEffect` persistence hooks become explicit `persist` steps that
  run after the state update that changed their dependency.
-/

namespace AiKnowledgeHub

/-- Whitespace predicate used by the model of `String.prototype.trim`. -/
def jsWs (c : Char) : Bool := c.isWhitespace

/-- Characters of a JS `trim`: drop whitespace from the front, then from the
back (implemented by reversing, dropping, reversing back). -/
def trimChars (l : List Char) : List Char :=
  ((l.dropWhile jsWs).reverse.dropWhile jsWs).reverse

/-- Model of JavaScript `String.prototype.trim`. -/
def jsTrim (s : String) : String := ⟨trimChars s.data⟩

/-- Model of JavaScript `s.startsWith(p)`. -/
def jsStartsWith (s p : String) : Bool := s.data.take p.data.length == p.data

/-- Model of JavaScript `s.slice(0, n)`. -/
def jsSlice (s : String) (n : Nat) : String := ⟨s.data.take n⟩

/-- Model of JavaScript `name.split('.')` (split on every dot; `""` splits
to `[""]`, like in JS). -/
def splitOnDot : List Char → List (List Char)
  | [] => [[]]
  | c :: rest =>
    let r := splitOnDot rest
    if c = '.' then [] :: r
    else
      match r with
      | [] => [[c]]
      | h :: t => (c :: h) :: t

/-- Model of JavaScript `name.replace(/\.[^/.]+$/, '')`: strip a final
extension, i.e. a last dot followed by one or more characters none of which
is `.` or `/`; if the name does not end in such a suffix it is unchanged. -/
def dropFinalExt (name : String) : String :=
  let r := name.data.reverse
  let suffix := r.takeWhile (fun c => c ≠ '.' ∧ c ≠ '/')
  match r.drop suffix.length with
  | '.' :: tail => if suffix.isEmpty then name else ⟨tail.reverse⟩
  | _ => name

/-! ## Data model (App.tsx `interface Document`) -/

/-- The `interface Document` of App.tsx. -/
structure Document where
  id : String
  title : String
  content : String
  createdAt : String
deriving DecidableEq, Repr

/-! ## Constants of App.tsx -/

def MAX_TITLE_LENGTH : Nat := 100
def MAX_CONTENT_LENGTH : Nat := 50000
def MAX_FILE_SIZE : Nat := 1024 * 1024

def ALLOWED_FILE_TYPES : List String :=
  ["text/plain", "text/markdown", "application/json", "text/csv",
   "text/html", "text/xml"]

def ALLOWED_FILE_EXTENSIONS : List String :=
  [".txt", ".md", ".json", ".csv", ".html", ".xml", ".log"]

/-! ## App state: document list and selection set

The component also holds form fields (`title`, `content`), error strings and
modal state; the claims under verification only concern `documents` and
`selectedDocIds`, so the form inputs are threaded as handler arguments. -/

/-- The slice of App.tsx `useState` cells the store claims are about:
`documents` and `selectedDocIds : Set<string>`. -/
structure AppState where
  documents : List Document
  selectedDocIds : Finset String
deriving DecidableEq

/-- Initial App state: empty store, empty selection. -/
def initialAppState : AppState := ⟨[], ∅⟩

/-- Inline per-field errors of `validateForm`. -/
structure FormErrors where
  title : String
  content : String
deriving DecidableEq, Repr

/-- App.tsx `validateForm`: returns the error record and `isValid`.
The title check is `!title.trim()` then `title.length > MAX_TITLE_LENGTH`
(note: the length checks are on the untrimmed strings), and likewise for
content; `isValid` is false as soon as either field fails. -/
def validateForm (title content : String) : FormErrors × Bool :=
  let tstep : FormErrors × Bool :=
    if jsTrim title = "" then (⟨"Title is required", ""⟩, false)
    else if title.length > MAX_TITLE_LENGTH then
      (⟨"Title must be 100 characters or less", ""⟩, false)
    else (⟨"", ""⟩, true)
  if jsTrim content = "" then (⟨tstep.1.title, "Content is required"⟩, false)
  else if content.length > MAX_CONTENT_LENGTH then
    (⟨tstep.1.title, "Content must be 50000 characters or less"⟩, false)
  else tstep

/-- App.tsx `handleAddDocument`: validate, then append
`{id: Date.now().toString(), title: title.trim(), content: content.trim(),
createdAt: new Date().toISOString()}`.  `nowId` and `nowTs` stand for the
two host-clock reads. -/
def handleAddDocument (title content nowId nowTs : String) (s : AppState) :
    AppState :=
  if (validateForm title content).2 then
    { s with documents :=
        s.documents ++ [⟨nowId, jsTrim title, jsTrim content, nowTs⟩] }
  else s

/-- App.tsx `handleDeleteDocument`: `documents.filter(doc => doc.id !== id)`.
The selection set is not touched by this handler. -/
def handleDeleteDocument (id : String) (s : AppState) : AppState :=
  { s with documents := s.documents.filter (fun doc => doc.id ≠ id) }

/-- App.tsx `handleClearAll`: behind `confirm(...)`, set `documents` to `[]`
and `selectedDocIds` to a fresh empty set. -/
def handleClearAll (confirmed : Bool) (s : AppState) : AppState :=
  if confirmed then { s with documents := [], selectedDocIds := ∅ } else s

/-- App.tsx `handleToggleDocument`: copy the set, delete the id if present,
add it otherwise. -/
def handleToggleDocument (id : String) (s : AppState) : AppState :=
  { s with selectedDocIds :=
      if id ∈ s.selectedDocIds then s.selectedDocIds.erase id
      else insert id s.selectedDocIds }

/-! ## Import codec (App.tsx `handleImportDocuments`)

An element of the parsed JSON array is an arbitrary JS value; the filter
only looks at the four fields through `typeof field === 'string'`, so each
field is modelled as either a string or anything else. -/

/-- A JS field as the import filter observes it: a string, or any
non-string value (including a missing field, whose `typeof` is
`'undefined'`). -/
inductive JsField where
  | str (s : String)
  | nonString
deriving DecidableEq, Repr

/-- An element of the imported JSON array, as observed by the filter. -/
structure RawDoc where
  id : JsField
  title : JsField
  content : JsField
  createdAt : JsField
deriving DecidableEq, Repr

/-- The element-wise import filter of `handleImportDocuments`: accept when
all four fields are strings and `doc.title.length <= MAX_TITLE_LENGTH &&
doc.content.length <= MAX_CONTENT_LENGTH`. -/
def importFilter (r : RawDoc) : Option Document :=
  match r.id, r.title, r.content, r.createdAt with
  | .str i, .str t, .str c, .str ts =>
    if t.length ≤ MAX_TITLE_LENGTH ∧ c.length ≤ MAX_CONTENT_LENGTH then
      some ⟨i, t, c, ts⟩
    else none
  | _, _, _, _ => none

/-- The `validDocuments.map(doc => ({...doc, id: Date.now().toString() +
Math.random().toString(36).substr(2, 9)}))` step: each accepted element is
assigned the next host-generated string (`gen i` for the i-th element); no
uniqueness check of any kind is performed. -/
def assignIds (gen : Nat → String) : Nat → List Document → List Document
  | _, [] => []
  | i, d :: rest => { d with id := gen i } :: assignIds gen (i + 1) rest

/-- App.tsx `handleImportDocuments`, from the parsed array onward: filter
element-wise, report `No valid documents found` when nothing survives
(state unchanged), otherwise re-id the survivors and append them to the
store. -/
def handleImportDocuments (arr : List RawDoc) (gen : Nat → String)
    (s : AppState) : AppState :=
  let validDocuments := arr.filterMap importFilter
  if validDocuments.isEmpty then s
  else { s with documents := s.documents ++ assignIds gen 0 validDocuments }

/-! ## Operation sequences over the store -/

/-- One user-level operation on the document store (the claims quantify
over sequences of these). -/
inductive StoreOp where
  | add (title content nowId nowTs : String)
  | importDocs (arr : List RawDoc) (gen : Nat → String)
  | delete (id : String)
  | clear (confirmed : Bool)

/-- Apply one operation. -/
def applyOp (s : AppState) : StoreOp → AppState
  | .add title content nowId nowTs => handleAddDocument title content nowId nowTs s
  | .importDocs arr gen => handleImportDocuments arr gen s
  | .delete id => handleDeleteDocument id s
  | .clear confirmed => handleClearAll confirmed s

/-- Run a sequence of operations. -/
def runOps (s : AppState) (ops : List StoreOp) : AppState :=
  ops.foldl applyOp s

/-! ## File upload gates (App.tsx `handleFileUpload`) -/

/-- An uploaded file as the handler observes it: `name`, declared media
`type`, byte `size`, and the text the host `FileReader` produces (the
read-error path is host I/O and is not modelled). -/
structure JsFile where
  name : String
  type : String
  size : Nat
  contentText : String
deriving DecidableEq, Repr

/-- Outcome of `handleFileUpload`'s gates. -/
inductive FileCheck where
  | fileTooLarge
  | unsupportedFileType
  | contentTooLong
  | ok (title content : String)
deriving DecidableEq, Repr

/-- The extension string, `'.' + file.name.split('.').pop()?.toLowerCase()`. -/
def fileExtensionOf (name : String) : String :=
  ⟨'.' :: ((splitOnDot name.data).getLastD []).map Char.toLower⟩

/-- App.tsx `handleFileUpload`: size gate, then type gate (media type OR
extension in the allow-lists), then extracted-content length gate, then
title derivation (`name` minus final extension, sliced to 100 chars). -/
def handleFileUpload (f : JsFile) : FileCheck :=
  if f.size > MAX_FILE_SIZE then .fileTooLarge
  else if ¬ (f.type ∈ ALLOWED_FILE_TYPES ∨
             fileExtensionOf f.name ∈ ALLOWED_FILE_EXTENSIONS) then
    .unsupportedFileType
  else if f.contentText.length > MAX_CONTENT_LENGTH then .contentTooLong
  else .ok (jsSlice (dropFinalExt f.name) MAX_TITLE_LENGTH) f.contentText

/-! ## Local storage and the chat session (src/unnamed/part_000)

`localStorage` is a string-keyed map, modelled as an association list. -/

/-- The browser storage, as key/value pairs. -/
def Storage := List (String × String)

/-- Model of `localStorage.setItem(k, v)`. -/
def setItem (k v : String) (st : Storage) : Storage :=
  (k, v) :: st.filter (fun p => p.1 ≠ k)

/-- Model of `localStorage.getItem(k)` (`none` for an absent key). -/
def getItem (k : String) (st : Storage) : Option String :=
  (st.find? (fun p => p.1 == k)).map (fun p => p.2)

/-- Model of `localStorage.removeItem(k)`. -/
def removeItem (k : String) (st : Storage) : Storage :=
  st.filter (fun p => p.1 ≠ k)

def CHAT_HISTORY_KEY : String := "ai-knowledge-chat-history"

/-- The `message.role` tag. -/
inductive Role where
  | user
  | assistant
deriving DecidableEq, Repr

/-- The `interface ChatMessage` of the chat component (`sources` is optional
and set only on assistant messages). -/
structure ChatMessage where
  id : String
  role : Role
  content : String
  timestamp : String
  sources : Option (List String)
deriving DecidableEq, Repr

/-- Rendering of one message for `JSON.stringify` (host primitive; the
string-escaping details are immaterial to the claims, which only inspect
the serialization of the empty list). -/
def stringifyMessage (m : ChatMessage) : String :=
  "\x7b" ++ "\"id\":\"" ++ m.id ++ "\"" ++ "\x7d"

/-- Model of `JSON.stringify(messages)`: `[]` serializes to `"[]"`. -/
def stringifyMessages (ms : List ChatMessage) : String :=
  "[" ++ String.intercalate "," (ms.map stringifyMessage) ++ "]"

/-- The chat component's `useState` cells plus the browser storage it
persists into. -/
structure ChatState where
  messages : List ChatMessage
  question : String
  isLoading : Bool
  error : String
  storage : Storage

/-- The `useEffect(() => localStorage.setItem(CHAT_HISTORY_KEY,
JSON.stringify(messages)), [messages])` persistence hook: runs after every
state update that replaced `messages`. -/
def persistHistory (s : ChatState) : ChatState :=
  { s with storage := setItem CHAT_HISTORY_KEY (stringifyMessages s.messages) s.storage }

/-- The chat `handleClearHistory`: behind `confirm(...)`, set `messages` to `[]` and
remove the storage key.  (The persistence hook then fires on the `messages`
change and re-writes the key; the claims compose the two steps.) -/
def handleClearHistory (confirmed : Bool) (s : ChatState) : ChatState :=
  if confirmed then
    { s with messages := [],
             storage := removeItem CHAT_HISTORY_KEY s.storage }
  else s

/-- The body and selected headers of the one `fetch` the handler issues
against `POST {apiBaseUrl}/ask`. -/
structure AskRequest where
  documents : List Document
  question : String
  apiKey : String
deriving DecidableEq, Repr

/-- Outcome of the remote call as the handler observes it: a 2xx body
`{answer, sources?}`, or a non-2xx body whose optional `detail` string
feeds the thrown error. -/
inductive FetchResult where
  | success (answer : String) (sources : Option (List String))
  | failure (detail : Option String)
deriving DecidableEq, Repr

/-- Host-environment inputs consumed by `handleAskQuestion`: the two
`Date.now()` / `toISOString()` reads for the user message, the fetch
outcome, and the id/timestamp reads for the assistant message. -/
structure AskEnv where
  userId : String
  userTs : String
  result : FetchResult
  asstId : String
  asstTs : String

/-- The `handleAskQuestion` of the chat component, with the persistence hook
inlined after each `setMessages`.  Returns the new state and the request
that was sent (`none` when a validation gate aborted before `fetch`).
Gates in source order: empty trimmed question; `!apiKey ||
!apiKey.startsWith('sk-')`; `documents.length === 0`.  On success the
assistant message carries `data.answer` and `data.sources`; on a non-2xx
response `errorData.detail || 'Failed to get response'` is surfaced as the
error and no assistant message is appended; `finally` clears `isLoading`. -/
def handleAskQuestion (docs : List Document) (apiKey : String) (env : AskEnv)
    (s : ChatState) : ChatState × Option AskRequest :=
  if jsTrim s.question = "" then
    ({ s with error := "Please enter a question" }, none)
  else if apiKey = "" ∨ jsStartsWith apiKey "sk-" = false then
    ({ s with error := "Please enter a valid API key" }, none)
  else if docs.length = 0 then
    ({ s with error := "Please select at least one document to query" }, none)
  else
    let userMessage : ChatMessage := ⟨env.userId, .user, s.question, env.userTs, none⟩
    let s1 := persistHistory
      { s with error := "", isLoading := true,
               messages := s.messages ++ [userMessage], question := "" }
    let req : AskRequest := ⟨docs, userMessage.content, apiKey⟩
    match env.result with
    | .success answer sources =>
      let assistantMessage : ChatMessage :=
        ⟨env.asstId, .assistant, answer, env.asstTs, sources⟩
      let s2 := persistHistory
        { s1 with messages := s1.messages ++ [assistantMessage] }
      ({ s2 with isLoading := false }, some req)
    | .failure detail =>
      ({ s1 with error := detail.getD "Failed to get response",
                 isLoading := false }, some req)

/-! ## Concrete sample values (the scenarios named by the spec) -/

/-- The sample document of the spec's chat scenarios. -/
def testDoc : Document :=
  ⟨"1", "Test Document", "This is test content", "2024-01-01T00:00:00Z"⟩

/-- A chat session with empty history, empty storage and a pending
question. -/
def chatStart (q : String) : ChatState := ⟨[], q, false, "", []⟩

/-- Host environment for the mocked success response
`{answer: "This is the AI response", sources: ["Test Document"]}`. -/
def askEnvSuccess : AskEnv :=
  ⟨"100", "2024-01-02T00:00:00Z",
   .success "This is the AI response" (some ["Test Document"]),
   "101", "2024-01-02T00:00:01Z"⟩

/-- Host environment for the mocked failed call (non-2xx body
`{detail: "API Error"}`). -/
def askEnvFailure : AskEnv :=
  ⟨"100", "2024-01-02T00:00:00Z", .failure (some "API Error"),
   "101", "2024-01-02T00:00:01Z"⟩

end AiKnowledgeHub


namespace AiKnowledgeHub

/-! ## Helper lemmas about trimming -/

lemma length_dropWhile_le (p : Char → Bool) (l : List Char) :
    (l.dropWhile p).length ≤ l.length :=
  (List.dropWhile_sublist p).length_le

lemma trimChars_length_le (l : List Char) : (trimChars l).length ≤ l.length := by
  unfold trimChars
  calc ((l.dropWhile jsWs).reverse.dropWhile jsWs).reverse.length
      = ((l.dropWhile jsWs).reverse.dropWhile jsWs).length :=
        List.length_reverse _
    _ ≤ (l.dropWhile jsWs).reverse.length := length_dropWhile_le _ _
    _ = (l.dropWhile jsWs).length := List.length_reverse _
    _ ≤ l.length := length_dropWhile_le _ _

lemma jsTrim_length_le (s : String) : (jsTrim s).length ≤ s.length :=
  trimChars_length_le s.data

lemma dropWhile_head_false {p : Char → Bool} :
    ∀ (l : List Char) (a : Char) (t : List Char),
      l.dropWhile p = a :: t → p a = false := by
  intro l
  induction l with
  | nil => intro a t h; simp [List.dropWhile] at h
  | cons b l ih =>
    intro a t h
    by_cases hb : p b
    · rw [List.dropWhile_cons, if_pos hb] at h
      exact ih a t h
    · rw [List.dropWhile_cons, if_neg hb] at h
      injection h with h1 _
      subst h1
      simpa using hb

lemma trimChars_ne_nil_exists {l : List Char} (h : trimChars l ≠ []) :
    ∃ c ∈ trimChars l, jsWs c = false := by
  unfold trimChars at *
  cases hD : (l.dropWhile jsWs).reverse.dropWhile jsWs with
  | nil => rw [hD] at h; simp at h
  | cons a t =>
    refine ⟨a, ?_, dropWhile_head_false _ a t hD⟩
    simp

lemma trimChars_eq_nil_all_ws {l : List Char} (h : trimChars l = []) :
    ∀ c ∈ l, jsWs c = true := by
  unfold trimChars at h
  have h1 : (l.dropWhile jsWs).reverse.dropWhile jsWs = [] :=
    List.reverse_eq_nil_iff.mp h
  have h2 : ∀ c ∈ (l.dropWhile jsWs).reverse, jsWs c :=
    List.dropWhile_eq_nil_iff.mp h1
  intro c hc
  have hsplit : c ∈ l.takeWhile jsWs ++ l.dropWhile jsWs := by
    rw [List.takeWhile_append_dropWhile jsWs l]; exact hc
  rcases List.mem_append.mp hsplit with hc1 | hc2
  · exact List.mem_takeWhile_imp hc1
  · exact h2 c (List.mem_reverse.mpr hc2)

lemma trimChars_trimChars_ne_nil {l : List Char} (h : trimChars l ≠ []) :
    trimChars (trimChars l) ≠ [] := by
  obtain ⟨c, hc, hws⟩ := trimChars_ne_nil_exists h
  intro hnil
  have := trimChars_eq_nil_all_ws hnil c hc
  rw [this] at hws
  cases hws

lemma mk_eq_empty_iff (l : List Char) : (⟨l⟩ : String) = "" ↔ l = [] := by
  constructor
  · intro h; exact congrArg String.data h
  · intro h; subst h; rfl

lemma jsTrim_jsTrim_ne_empty {s : String} (h : jsTrim s ≠ "") :
    jsTrim (jsTrim s) ≠ "" := by
  intro h2
  have hl : trimChars s.data ≠ [] := fun hnil => h ((mk_eq_empty_iff _).mpr hnil)
  exact trimChars_trimChars_ne_nil hl ((mk_eq_empty_iff _).mp h2)

lemma jsTrim_ne_empty_length {s : String} (h : jsTrim s ≠ "") :
    1 ≤ (jsTrim s).length := by
  rcases Nat.eq_zero_or_pos (jsTrim s).length with h0 | h1
  · exfalso
    apply h
    have h0' : (jsTrim s).data.length = 0 := h0
    have hdata : (jsTrim s).data = [] := List.eq_nil_of_length_eq_zero h0'
    exact (mk_eq_empty_iff (jsTrim s).data).mpr hdata
  · exact h1

end AiKnowledgeHub

namespace AiKnowledgeHub

/-! ## Characterizations of the validation gates -/

lemma validateForm_true_iff (t c : String) :
    (validateForm t c).2 = true ↔
      (jsTrim t ≠ "" ∧ t.length ≤ MAX_TITLE_LENGTH ∧
       jsTrim c ≠ "" ∧ c.length ≤ MAX_CONTENT_LENGTH) := by
  unfold validateForm
  by_cases hc1 : jsTrim c = ""
  · simp [hc1]
  · by_cases hc2 : c.length > MAX_CONTENT_LENGTH
    · simp [hc1, hc2]
    · by_cases ht1 : jsTrim t = ""
      · simp [ht1, hc1, hc2]
      · by_cases ht2 : t.length > MAX_TITLE_LENGTH
        · simp [ht1, ht2, hc1, hc2]
        · simp [ht1, ht2, hc1, hc2]
          omega

lemma importFilter_eq_some_iff (r : RawDoc) (d : Document) :
    importFilter r = some d ↔
      (r.id = .str d.id ∧ r.title = .str d.title ∧ r.content = .str d.content ∧
       r.createdAt = .str d.createdAt ∧
       d.title.length ≤ MAX_TITLE_LENGTH ∧ d.content.length ≤ MAX_CONTENT_LENGTH) := by
  obtain ⟨i, t, c, ts⟩ := r
  cases i with
  | nonString => simp [importFilter]
  | str i =>
  cases t with
  | nonString => simp [importFilter]
  | str t =>
  cases c with
  | nonString => simp [importFilter]
  | str c =>
  cases ts with
  | nonString => simp [importFilter]
  | str ts =>
  simp only [importFilter, JsField.str.injEq]
  split
  · next hcond =>
    constructor
    · intro h
      have hd : ⟨i, t, c, ts⟩ = d := by injection h
      subst hd
      exact ⟨rfl, rfl, rfl, rfl, hcond.1, hcond.2⟩
    · rintro ⟨h1, h2, h3, h4, -, -⟩
      obtain ⟨di, dt, dc, dts⟩ := d
      simp only at h1 h2 h3 h4
      subst h1; subst h2; subst h3; subst h4
      rfl
  · next hcond =>
    constructor
    · intro h; cases h
    · rintro ⟨h1, h2, h3, h4, h5, h6⟩
      obtain ⟨di, dt, dc, dts⟩ := d
      simp only at h1 h2 h3 h4
      subst h1; subst h2; subst h3; subst h4
      exact absurd ⟨h5, h6⟩ hcond

lemma mem_assignIds {gen : Nat → String} :
    ∀ {i : Nat} {ds : List Document} {d : Document}, d ∈ assignIds gen i ds →
      ∃ j d', d' ∈ ds ∧ d = { d' with id := gen j } := by
  intro i ds
  induction ds generalizing i with
  | nil => intro d h; cases h
  | cons a rest ih =>
    intro d h
    rw [assignIds] at h
    rcases List.mem_cons.mp h with h | h
    · exact ⟨i, a, List.mem_cons_self a rest, h⟩
    · obtain ⟨j, d', hd', he⟩ := ih h
      exact ⟨j, d', List.mem_cons_of_mem a hd', he⟩

/-! ## The store invariant -/

/-- The upper bounds that the store does enforce on every document. -/
def docUpperOk (d : Document) : Prop :=
  (jsTrim d.title).length ≤ MAX_TITLE_LENGTH ∧
  (jsTrim d.content).length ≤ MAX_CONTENT_LENGTH

lemma importFilter_upperOk {r : RawDoc} {d : Document}
    (h : importFilter r = some d) : docUpperOk d := by
  obtain ⟨-, -, -, -, h5, h6⟩ := (importFilter_eq_some_iff r d).mp h
  exact ⟨le_trans (jsTrim_length_le _) h5, le_trans (jsTrim_length_le _) h6⟩

lemma applyOp_upperOk {s : AppState} (h : ∀ d ∈ s.documents, docUpperOk d)
    (op : StoreOp) : ∀ d ∈ (applyOp s op).documents, docUpperOk d := by
  intro d hd
  cases op with
  | add title content nowId nowTs =>
    simp only [applyOp, handleAddDocument] at hd
    split at hd
    · next hv =>
      rcases List.mem_append.mp hd with hd | hd
      · exact h d hd
      · obtain ⟨ht1, ht2, hc1, hc2⟩ := (validateForm_true_iff title content).mp hv
        rcases List.mem_singleton.mp hd with rfl
        exact ⟨le_trans (jsTrim_length_le _) (le_trans (jsTrim_length_le _) ht2),
               le_trans (jsTrim_length_le _) (le_trans (jsTrim_length_le _) hc2)⟩
    · exact h d hd
  | importDocs arr gen =>
    simp only [applyOp] at hd
    rw [handleImportDocuments] at hd
    split at hd
    · exact h d hd
    · simp only at hd
      rcases List.mem_append.mp hd with hd | hd
      · exact h d hd
      · obtain ⟨j, d', hd', rfl⟩ := mem_assignIds hd
        obtain ⟨r, hr, hfil⟩ := List.mem_filterMap.mp hd'
        have hok := importFilter_upperOk hfil
        exact hok
  | delete id =>
    simp only [applyOp, handleDeleteDocument] at hd
    exact h d (List.mem_of_mem_filter hd)
  | clear confirmed =>
    simp only [applyOp, handleClearAll] at hd
    split at hd
    · cases hd
    · exact h d hd

lemma runOps_upperOk :
    ∀ (ops : List StoreOp) (s : AppState),
      (∀ d ∈ s.documents, docUpperOk d) →
      ∀ d ∈ (runOps s ops).documents, docUpperOk d := by
  intro ops
  induction ops with
  | nil => intro s h; simpa [runOps] using h
  | cons op ops ih =>
    intro s h
    have hstep : runOps s (op :: ops) = runOps (applyOp s op) ops := rfl
    rw [hstep]
    exact ih (applyOp s op) (applyOp_upperOk h op)

end AiKnowledgeHub

namespace AiKnowledgeHub

lemma getItem_setItem (k v : String) (st : Storage) :
    getItem k (setItem k v st) = some v := by
  unfold getItem setItem
  rw [List.find?_cons_of_pos _ (by simp)]
  rfl

/-! ## Claims -/

/-- C1, counterexample: importing the element
`{id:"1", title:"", content:"", createdAt:"2024-01-01T00:00:00Z"}` is
accepted by the import filter (all four fields are strings and the raw
lengths are within the upper bounds), so after the import the store holds a
document whose trimmed title has length 0 — the claimed invariant
`1 ≤ trimmed(title).length` fails, as does the claim that import only
accepts elements satisfying the length invariants. -/
theorem import_allows_empty_title_cex :
    ¬ (∀ d ∈ (runOps initialAppState
          [StoreOp.importDocs
            [⟨.str "1", .str "", .str "", .str "2024-01-01T00:00:00Z"⟩]
            (fun _ => "g0")]).documents,
        (1 ≤ (jsTrim d.title).length ∧ (jsTrim d.title).length ≤ MAX_TITLE_LENGTH) ∧
        (1 ≤ (jsTrim d.content).length ∧ (jsTrim d.content).length ≤ MAX_CONTENT_LENGTH)) := by
  decide

/-- C1, amended: after any sequence of add/import/delete/clear operations
from the empty store, every document satisfies the UPPER bounds
(`trimmed(title).length ≤ 100` and `trimmed(content).length ≤ 50000`); and
the import filter accepts an element exactly when its four fields are strings
and the raw title/content lengths satisfy the upper bounds (no lower bound
is checked, so imported titles/contents may trim to empty); a document
freshly appended by `add` does additionally satisfy the lower bounds. -/
theorem store_upper_bounds_and_import_filter :
    (∀ ops : List StoreOp, ∀ d ∈ (runOps initialAppState ops).documents,
        (jsTrim d.title).length ≤ MAX_TITLE_LENGTH ∧
        (jsTrim d.content).length ≤ MAX_CONTENT_LENGTH) ∧
    (∀ (r : RawDoc) (d : Document), importFilter r = some d ↔
        (r.id = .str d.id ∧ r.title = .str d.title ∧ r.content = .str d.content ∧
         r.createdAt = .str d.createdAt ∧
         d.title.length ≤ MAX_TITLE_LENGTH ∧ d.content.length ≤ MAX_CONTENT_LENGTH)) ∧
    (∀ (s : AppState) (title content nowId nowTs : String),
        (validateForm title content).2 = true →
        ∀ d ∈ (handleAddDocument title content nowId nowTs s).documents,
          d ∈ s.documents ∨
            (1 ≤ (jsTrim d.title).length ∧ 1 ≤ (jsTrim d.content).length)) := by
  refine ⟨?_, importFilter_eq_some_iff, ?_⟩
  · intro ops d hd
    exact runOps_upperOk ops initialAppState (by intro d h; cases h) d hd
  · intro s title content nowId nowTs hv d hd
    rw [handleAddDocument, if_pos hv] at hd
    rcases List.mem_append.mp hd with hd | hd
    · exact Or.inl hd
    · rcases List.mem_singleton.mp hd with rfl
      obtain ⟨ht1, -, hc1, -⟩ := (validateForm_true_iff title content).mp hv
      exact Or.inr ⟨jsTrim_ne_empty_length (jsTrim_jsTrim_ne_empty ht1),
                    jsTrim_ne_empty_length (jsTrim_jsTrim_ne_empty hc1)⟩

/-- Witness for the amended C1 theorem at concrete inputs. -/
theorem store_upper_bounds_and_import_filter_witness :
    ((jsTrim ((⟨"id0", jsTrim "A", jsTrim "B", "ts"⟩ : Document).title)).length ≤ MAX_TITLE_LENGTH ∧
     (jsTrim ((⟨"id0", jsTrim "A", jsTrim "B", "ts"⟩ : Document).content)).length ≤ MAX_CONTENT_LENGTH) ∧
    (importFilter ⟨.str "1", .str "A", .str "B", .str "ts"⟩ = some ⟨"1", "A", "B", "ts"⟩) ∧
    ((⟨"id0", jsTrim "A", jsTrim "B", "ts"⟩ : Document) ∈ initialAppState.documents ∨
      (1 ≤ (jsTrim ((⟨"id0", jsTrim "A", jsTrim "B", "ts"⟩ : Document).title)).length ∧
       1 ≤ (jsTrim ((⟨"id0", jsTrim "A", jsTrim "B", "ts"⟩ : Document).content)).length)) := by
  refine ⟨?_, ?_, ?_⟩
  · exact store_upper_bounds_and_import_filter.1
      [StoreOp.add "A" "B" "id0" "ts"] ⟨"id0", jsTrim "A", jsTrim "B", "ts"⟩ (by decide)
  · exact (store_upper_bounds_and_import_filter.2.1 _ _).mpr (by decide)
  · exact store_upper_bounds_and_import_filter.2.2 initialAppState "A" "B" "id0" "ts"
      (by decide) ⟨"id0", jsTrim "A", jsTrim "B", "ts"⟩ (by decide)

/-- C2, counterexample: with store `[{id:"1",...}]` and selection `{"1"}`,
`handleDeleteDocument "1"` removes the document but leaves the selection
untouched, so the selection still references the now-nonexistent ID. -/
theorem delete_does_not_prune_selection_cex :
    ¬ (∀ x ∈ (handleDeleteDocument "1"
          (⟨[⟨"1", "t", "c", "ts"⟩], {"1"}⟩ : AppState)).selectedDocIds,
        ∃ d ∈ (handleDeleteDocument "1"
          (⟨[⟨"1", "t", "c", "ts"⟩], {"1"}⟩ : AppState)).documents, d.id = x) := by
  decide

/-- C2, amended: `handleClearAll` (confirmed) empties the selection set, so
after a clear the selection references no ID at all; `handleDeleteDocument`
leaves the selection set unchanged, so a deleted ID may remain in the
selection — the selection is pruned on clear but not on delete. -/
theorem clear_prunes_selection_delete_does_not (s : AppState) (id : String) :
    (handleClearAll true s).selectedDocIds = ∅ ∧
    (handleDeleteDocument id s).selectedDocIds = s.selectedDocIds :=
  ⟨rfl, rfl⟩

/-- C3, counterexample: a 1,000-byte file named `document.pdf` with declared
media type `application/pdf` fails the type gate — neither
`application/pdf` nor `.pdf` is in the allow-lists — and yields
`UnsupportedFileType` instead of passing the type check. -/
theorem pdf_rejected_cex :
    handleFileUpload ⟨"document.pdf", "application/pdf", 1000, "hello"⟩ =
        FileCheck.unsupportedFileType ∧
      "application/pdf" ∉ ALLOWED_FILE_TYPES ∧ ".pdf" ∉ ALLOWED_FILE_EXTENSIONS := by
  decide

/-- C3, amended: for a file within the size limit, the type gate rejects
with `UnsupportedFileType` exactly when neither the declared media type nor
the lower-cased extension is in the allow-lists (a union, as claimed) — but
the allow-lists are `text/plain, text/markdown, application/json, text/csv,
text/html, text/xml` and `.txt .md .json .csv .html .xml .log`; they contain
neither `application/pdf` nor `.pdf`, so PDF files are rejected. -/
theorem type_gate_union (f : JsFile) (hsize : f.size ≤ MAX_FILE_SIZE) :
    (handleFileUpload f = FileCheck.unsupportedFileType ↔
      ¬ (f.type ∈ ALLOWED_FILE_TYPES ∨
         fileExtensionOf f.name ∈ ALLOWED_FILE_EXTENSIONS)) ∧
    "application/pdf" ∉ ALLOWED_FILE_TYPES ∧ ".pdf" ∉ ALLOWED_FILE_EXTENSIONS := by
  refine ⟨?_, by decide, by decide⟩
  unfold handleFileUpload
  have h1 : ¬ f.size > MAX_FILE_SIZE := by omega
  rw [if_neg h1]
  by_cases h2 : ¬ (f.type ∈ ALLOWED_FILE_TYPES ∨
      fileExtensionOf f.name ∈ ALLOWED_FILE_EXTENSIONS)
  · rw [if_pos h2]
    simp [h2]
  · rw [if_neg h2]
    have hL : (if f.contentText.length > MAX_CONTENT_LENGTH then
          FileCheck.contentTooLong
        else FileCheck.ok (jsSlice (dropFinalExt f.name) MAX_TITLE_LENGTH)
              f.contentText) ≠ FileCheck.unsupportedFileType := by
      split <;> simp
    constructor
    · intro h; exact absurd h hL
    · intro h; exact absurd h h2

/-- Witness for the amended C3 theorem at a concrete accepted text file. -/
theorem type_gate_union_witness :
    ((handleFileUpload ⟨"a.txt", "text/plain", 10, "h"⟩ =
        FileCheck.unsupportedFileType ↔
      ¬ ("text/plain" ∈ ALLOWED_FILE_TYPES ∨
         fileExtensionOf "a.txt" ∈ ALLOWED_FILE_EXTENSIONS)) ∧
     "application/pdf" ∉ ALLOWED_FILE_TYPES ∧ ".pdf" ∉ ALLOWED_FILE_EXTENSIONS) :=
  type_gate_union ⟨"a.txt", "text/plain", 10, "h"⟩ (by decide)

end AiKnowledgeHub

namespace AiKnowledgeHub

/-- C4: every validation failure — question empty after trimming, API key
absent or not starting with `sk-`, or no document selected — aborts before
any message is appended and before any request is issued; in particular an
`invalid-key` API key with a nonempty question surfaces the
invalid-API-key-format error and issues no request. -/
theorem ask_validation_failure_aborts (docs : List Document) (apiKey : String)
    (env : AskEnv) (s : ChatState)
    (h : jsTrim s.question = "" ∨ apiKey = "" ∨
         jsStartsWith apiKey "sk-" = false ∨ docs = []) :
    (handleAskQuestion docs apiKey env s).1.messages = s.messages ∧
    (handleAskQuestion docs apiKey env s).2 = none ∧
    (apiKey = "invalid-key" → jsTrim s.question ≠ "" →
      (handleAskQuestion docs apiKey env s).1.error =
        "Please enter a valid API key") := by
  by_cases h1 : jsTrim s.question = ""
  · refine ⟨?_, ?_, ?_⟩ <;> simp [handleAskQuestion, h1]
  · by_cases h2 : apiKey = "" ∨ jsStartsWith apiKey "sk-" = false
    · refine ⟨?_, ?_, ?_⟩ <;> simp [handleAskQuestion, h1, h2]
    · have hd : docs = [] := by
        rcases h with hq | hk | hsw | hdd
        · exact absurd hq h1
        · exact absurd (Or.inl hk) h2
        · exact absurd (Or.inr hsw) h2
        · exact hdd
      subst hd
      refine ⟨?_, ?_, ?_⟩
      · simp [handleAskQuestion, h1, h2]
      · simp [handleAskQuestion, h1, h2]
      · intro hk hq
        exact absurd (Or.inr (by subst hk; decide)) h2

/-- Witness for C4 at the spec's `apiKey="invalid-key"` scenario. -/
theorem ask_validation_failure_aborts_witness :
    (handleAskQuestion [testDoc] "invalid-key" askEnvSuccess
        (chatStart "What is this about?")).1.messages =
      (chatStart "What is this about?").messages ∧
    (handleAskQuestion [testDoc] "invalid-key" askEnvSuccess
        (chatStart "What is this about?")).2 = none ∧
    (handleAskQuestion [testDoc] "invalid-key" askEnvSuccess
        (chatStart "What is this about?")).1.error =
      "Please enter a valid API key" := by
  have h := ask_validation_failure_aborts [testDoc] "invalid-key" askEnvSuccess
    (chatStart "What is this about?") (Or.inr (Or.inr (Or.inl (by decide))))
  exact ⟨h.1, h.2.1, h.2.2 rfl (by decide)⟩

/-- C5: a validated send from an empty history with a success response
leaves exactly two messages — the user question, then the assistant message
carrying the returned answer and sources — and issues exactly the request
with the selected documents, the question and the API key. -/
theorem ask_success_appends_user_then_assistant (docs : List Document)
    (apiKey : String) (env : AskEnv) (s : ChatState) (ans : String)
    (srcs : Option (List String))
    (hq : jsTrim s.question ≠ "") (hk : jsStartsWith apiKey "sk-" = true)
    (hd : docs ≠ []) (hm : s.messages = [])
    (hr : env.result = .success ans srcs) :
    (handleAskQuestion docs apiKey env s).1.messages =
      [⟨env.userId, .user, s.question, env.userTs, none⟩,
       ⟨env.asstId, .assistant, ans, env.asstTs, srcs⟩] ∧
    (handleAskQuestion docs apiKey env s).2 =
      some ⟨docs, s.question, apiKey⟩ := by
  have hk' : ¬ (apiKey = "" ∨ jsStartsWith apiKey "sk-" = false) := by
    rintro (h | h)
    · subst h; exact absurd hk (by decide)
    · rw [h] at hk; cases hk
  have hd' : ¬ (docs.length = 0) := by
    simpa [List.length_eq_zero] using hd
  unfold handleAskQuestion
  rw [if_neg hq, if_neg hk', if_neg hd', hr]
  simp [persistHistory, hm]

/-- Witness for C5 at the spec's mocked-success scenario. -/
theorem ask_success_appends_user_then_assistant_witness :
    (handleAskQuestion [testDoc] "sk-test" askEnvSuccess
        (chatStart "What is this about?")).1.messages =
      [⟨"100", .user, "What is this about?", "2024-01-02T00:00:00Z", none⟩,
       ⟨"101", .assistant, "This is the AI response", "2024-01-02T00:00:01Z",
        some ["Test Document"]⟩] ∧
    (handleAskQuestion [testDoc] "sk-test" askEnvSuccess
        (chatStart "What is this about?")).2 =
      some ⟨[testDoc], "What is this about?", "sk-test"⟩ := by
  exact ask_success_appends_user_then_assistant [testDoc] "sk-test"
    askEnvSuccess (chatStart "What is this about?") "This is the AI response"
    (some ["Test Document"]) (by decide) (by decide) (by decide) rfl rfl

/-- C6: a validated send whose remote call fails keeps the user's question
in history (no rollback), appends no assistant message, surfaces the body's
`detail` string verbatim (with the generic fallback when absent), and
returns to the idle (non-loading) state. -/
theorem ask_failure_keeps_question (docs : List Document) (apiKey : String)
    (env : AskEnv) (s : ChatState) (detail : Option String)
    (hq : jsTrim s.question ≠ "") (hk : jsStartsWith apiKey "sk-" = true)
    (hd : docs ≠ []) (hr : env.result = .failure detail) :
    (handleAskQuestion docs apiKey env s).1.messages =
      s.messages ++ [⟨env.userId, .user, s.question, env.userTs, none⟩] ∧
    (handleAskQuestion docs apiKey env s).1.error =
      detail.getD "Failed to get response" ∧
    (handleAskQuestion docs apiKey env s).1.isLoading = false := by
  have hk' : ¬ (apiKey = "" ∨ jsStartsWith apiKey "sk-" = false) := by
    rintro (h | h)
    · subst h; exact absurd hk (by decide)
    · rw [h] at hk; cases hk
  have hd' : ¬ (docs.length = 0) := by
    simpa [List.length_eq_zero] using hd
  unfold handleAskQuestion
  rw [if_neg hq, if_neg hk', if_neg hd', hr]
  simp [persistHistory]

/-- Witness for C6 at the spec's `{detail:"API Error"}` scenario. -/
theorem ask_failure_keeps_question_witness :
    (handleAskQuestion [testDoc] "sk-test" askEnvFailure
        (chatStart "What is this about?")).1.messages =
      (chatStart "What is this about?").messages ++
        [⟨"100", .user, "What is this about?", "2024-01-02T00:00:00Z", none⟩] ∧
    (handleAskQuestion [testDoc] "sk-test" askEnvFailure
        (chatStart "What is this about?")).1.error = "API Error" ∧
    (handleAskQuestion [testDoc] "sk-test" askEnvFailure
        (chatStart "What is this about?")).1.isLoading = false := by
  exact ask_failure_keeps_question [testDoc] "sk-test" askEnvFailure
    (chatStart "What is this about?") (some "API Error")
    (by decide) (by decide) (by decide) rfl

end AiKnowledgeHub

namespace AiKnowledgeHub

/-- C7, counterexample: the generated IDs are host timestamp+random strings
with no uniqueness check; with a host environment that returns the same
string twice, importing two valid elements into the empty store yields two
documents with the SAME ID — the claimed distinctness from every
sibling-imported ID fails. -/
theorem import_sibling_id_collision_cex :
    ((handleImportDocuments
        [⟨.str "1", .str "A", .str "B", .str "2024-01-01T00:00:00Z"⟩,
         ⟨.str "2", .str "C", .str "D", .str "2024-01-01T00:00:00Z"⟩]
        (fun _ => "K") initialAppState).documents.map Document.id) = ["K", "K"] ∧
    ¬ ((handleImportDocuments
        [⟨.str "1", .str "A", .str "B", .str "2024-01-01T00:00:00Z"⟩,
         ⟨.str "2", .str "C", .str "D", .str "2024-01-01T00:00:00Z"⟩]
        (fun _ => "K") initialAppState).documents.map Document.id).Nodup := by
  decide

/-- C7, amended: an accepted element keeps its title, content and createdAt
and gets the host-generated ID in place of its own; PROVIDED the generated
ID differs from the element's original ID and from every stored ID — which
the code does not itself check — importing one valid element merges exactly
one such document, whose ID is the only occurrence of the generated string
in the store. -/
theorem import_replaces_id_preserves_fields (s : AppState) (r : RawDoc)
    (d : Document) (gen : Nat → String) (hacc : importFilter r = some d)
    (hne : gen 0 ≠ d.id) (hfresh : ∀ e ∈ s.documents, gen 0 ≠ e.id) :
    (handleImportDocuments [r] gen s).documents =
      s.documents ++ [⟨gen 0, d.title, d.content, d.createdAt⟩] ∧
    (∀ e ∈ (handleImportDocuments [r] gen s).documents,
      e.id = gen 0 → e = ⟨gen 0, d.title, d.content, d.createdAt⟩) ∧
    (⟨gen 0, d.title, d.content, d.createdAt⟩ : Document).id ≠ d.id := by
  have hdocs : (handleImportDocuments [r] gen s).documents =
      s.documents ++ [⟨gen 0, d.title, d.content, d.createdAt⟩] := by
    unfold handleImportDocuments
    simp [List.filterMap_cons, hacc, assignIds]
  refine ⟨hdocs, ?_, hne⟩
  intro e he hid
  rw [hdocs] at he
  rcases List.mem_append.mp he with he | he
  · exact absurd hid.symm (hfresh e he)
  · exact List.mem_singleton.mp he

/-- Witness for the amended C7 theorem: the spec's single-element import
into an empty store, with a concrete generated ID. -/
theorem import_replaces_id_preserves_fields_witness :
    (handleImportDocuments
        [⟨.str "1", .str "A", .str "B", .str "2024-01-01T00:00:00Z"⟩]
        (fun _ => "1700000000000x7q3k9f2") initialAppState).documents =
      initialAppState.documents ++
        [⟨"1700000000000x7q3k9f2", "A", "B", "2024-01-01T00:00:00Z"⟩] ∧
    (∀ e ∈ (handleImportDocuments
        [⟨.str "1", .str "A", .str "B", .str "2024-01-01T00:00:00Z"⟩]
        (fun _ => "1700000000000x7q3k9f2") initialAppState).documents,
      e.id = "1700000000000x7q3k9f2" →
        e = ⟨"1700000000000x7q3k9f2", "A", "B", "2024-01-01T00:00:00Z"⟩) ∧
    (⟨"1700000000000x7q3k9f2", "A", "B", "2024-01-01T00:00:00Z"⟩ : Document).id
      ≠ "1" := by
  exact import_replaces_id_preserves_fields initialAppState
    ⟨.str "1", .str "A", .str "B", .str "2024-01-01T00:00:00Z"⟩
    ⟨"1", "A", "B", "2024-01-01T00:00:00Z"⟩
    (fun _ => "1700000000000x7q3k9f2") (by decide) (by decide) (by decide)

/-- C8: `handleClearHistory` (confirmed) empties the in-memory history, and
after the persistence hook fires on the `messages` change, the chat-history
key is PRESENT and holds the empty JSON array `"[]"` — a reload would read
an empty array from a present key, not an absent key. -/
theorem clear_history_persists_empty_array (s : ChatState) :
    (persistHistory (handleClearHistory true s)).messages = [] ∧
    getItem CHAT_HISTORY_KEY
        (persistHistory (handleClearHistory true s)).storage = some "[]" := by
  constructor
  · rfl
  · calc getItem CHAT_HISTORY_KEY
          (persistHistory (handleClearHistory true s)).storage
        = some (stringifyMessages []) :=
          getItem_setItem CHAT_HISTORY_KEY (stringifyMessages [])
            (removeItem CHAT_HISTORY_KEY s.storage)
      _ = some "[]" := rfl

/-- C9: the size gate rejects with `FileTooLarge` exactly when the byte
size exceeds 1,048,576; so 1,048,577 bytes is rejected and 1,048,576 bytes
passes the size check. -/
theorem size_gate_iff (f : JsFile) :
    handleFileUpload f = FileCheck.fileTooLarge ↔ 1048576 < f.size := by
  have hmax : MAX_FILE_SIZE = 1048576 := by decide
  unfold handleFileUpload
  by_cases h : f.size > MAX_FILE_SIZE
  · rw [if_pos h]
    rw [hmax] at h
    exact ⟨fun _ => h, fun _ => rfl⟩
  · rw [if_neg h]
    rw [hmax] at h
    constructor
    · intro hcontra
      exfalso
      split at hcontra
      · exact FileCheck.noConfusion hcontra
      · split at hcontra
        · exact FileCheck.noConfusion hcontra
        · exact FileCheck.noConfusion hcontra
    · intro hlt
      exact absurd hlt h
  
/-- C10: toggling a document ID twice restores the selection set exactly;
a single toggle flips the membership of the toggled ID itself (it is
selected afterwards exactly when it was not selected before) and changes
the membership of no other ID. -/
theorem toggle_involution_and_locality (s : AppState) (id : String) :
    handleToggleDocument id (handleToggleDocument id s) = s ∧
    (id ∈ (handleToggleDocument id s).selectedDocIds ↔
      id ∉ s.selectedDocIds) ∧
    ∀ y : String, y ≠ id →
      (y ∈ (handleToggleDocument id s).selectedDocIds ↔
        y ∈ s.selectedDocIds) := by
  refine ⟨?_, ?_, ?_⟩
  · unfold handleToggleDocument
    dsimp only
    by_cases h : id ∈ s.selectedDocIds
    · rw [if_pos h, if_neg (Finset.not_mem_erase id s.selectedDocIds),
        Finset.insert_erase h]
    · rw [if_neg h, if_pos (Finset.mem_insert_self id s.selectedDocIds),
        Finset.erase_insert h]
  · unfold handleToggleDocument
    dsimp only
    by_cases h : id ∈ s.selectedDocIds
    · rw [if_pos h]
      simp [Finset.not_mem_erase id s.selectedDocIds, h]
    · rw [if_neg h]
      simp [Finset.mem_insert_self id s.selectedDocIds, h]
  · intro y hy
    unfold handleToggleDocument
    dsimp only
    by_cases h : id ∈ s.selectedDocIds
    · rw [if_pos h]
      exact ⟨fun hm => (Finset.mem_erase.mp hm).2,
             fun hm => Finset.mem_erase.mpr ⟨hy, hm⟩⟩
    · rw [if_neg h]
      constructor
      · intro hm
        rcases Finset.mem_insert.mp hm with h1 | h1
        · exact absurd h1 hy
        · exact h1
      · exact fun hm => Finset.mem_insert_of_mem hm

/-- Witness for C10 at a concrete selection set: the double toggle
restores the set, the toggled ID's own membership flips, and the other
ID's membership is untouched. -/
theorem toggle_involution_and_locality_witness :
    (handleToggleDocument "1" (handleToggleDocument "1"
        (⟨[], {"2"}⟩ : AppState)) = (⟨[], {"2"}⟩ : AppState)) ∧
    ("1" ∈ (handleToggleDocument "1"
        (⟨[], {"2"}⟩ : AppState)).selectedDocIds ↔
      "1" ∉ (⟨[], ({"2"} : Finset String)⟩ : AppState).selectedDocIds) ∧
    ("2" ∈ (handleToggleDocument "1"
        (⟨[], {"2"}⟩ : AppState)).selectedDocIds ↔
      "2" ∈ (⟨[], ({"2"} : Finset String)⟩ : AppState).selectedDocIds) := by
  have h := toggle_involution_and_locality (⟨[], {"2"}⟩ : AppState) "1"
  exact ⟨h.1, h.2.1, h.2.2 "2" (by decide)⟩

end AiKnowledgeHub
